import Mathlib

set_option maxRecDepth 100000

/-!
Verification of the Luat VSCode extension's server acquisition and lifecycle
layer (`editors/vscode/src/extension.ts`), shallowly embedded in Lean.

The filesystem is modelled as a list of existing paths, the editor host's
inputs (configuration, environment, user choices, network responses,
extraction outcomes) as explicit parameters, and the observable effects of
the orchestration (files written, sessions started, network requests,
error messages) as an explicit world record threaded through the flow.
-/

namespace LuatExt

/-- `path.join(a, b)` — modelled as separator concatenation. -/
def pathJoin (a b : String) : String := a ++ "/" ++ b

/-- JS `String.prototype.startsWith`, modelled on the character list. -/
def strStartsWith (s p : String) : Bool := p.data.isPrefixOf s.data

/-- JS `String.prototype.endsWith`, modelled on the character list. -/
def strEndsWith (s p : String) : Bool := p.data.isSuffixOf s.data

/-- `BINARY_NAME = process.platform === "win32" ? "luat-lsp.exe" : "luat-lsp"`. -/
def binaryName (platform : String) : String :=
  if platform = "win32" then "luat-lsp.exe" else "luat-lsp"

/-- `fs.existsSync(p)` against a filesystem modelled as the list of existing paths. -/
def existsSync (p : String) (fs : List String) : Bool := fs.contains p

/-- The ambient inputs read by `getServerPath`: the `luat.server.path`
configuration value (absent or a string, an empty string being falsy in the
source's `if (configPath && ...)` guard), the extension's global storage
directory, the directories of the process `PATH`, `CARGO_HOME` (absent or a
string, empty being falsy in `process.env.CARGO_HOME || ...`), the home
directory, and the process platform/arch strings. -/
structure Env where
  configServerPath : Option String
  globalStoragePath : String
  pathDirs : List String
  cargoHome : Option String
  homedir : String
  platform : String
  arch : String
deriving Repr, DecidableEq

/-- `process.env.CARGO_HOME || path.join(os.homedir(), ".cargo")`. -/
def cargoHomeDir (env : Env) : String :=
  match env.cargoHome with
  | some ch => if ch = "" then pathJoin env.homedir ".cargo" else ch
  | none => pathJoin env.homedir ".cargo"

/-- `getServerPath` from `extension.ts` (lines 126–165): config override first,
then the extension's `server` storage directory, then each `PATH` directory,
then `$CARGO_HOME/bin`, else `undefined`. -/
def getServerPath (env : Env) (fs : List String) : Option String :=
  let bin := binaryName env.platform
  let configHit : Option String :=
    match env.configServerPath with
    | some cp => if cp != "" && existsSync cp fs then some cp else none
    | none => none
  match configHit with
  | some cp => some cp
  | none =>
    let extensionServerPath := pathJoin (pathJoin env.globalStoragePath "server") bin
    if existsSync extensionServerPath fs then some extensionServerPath
    else
      match env.pathDirs.find? (fun dir => existsSync (pathJoin dir bin) fs) with
      | some dir => some (pathJoin dir bin)
      | none =>
        let cargoPath := pathJoin (pathJoin (cargoHomeDir env) "bin") bin
        if existsSync cargoPath fs then some cargoPath else none

/-- The candidate locations in the spec's precedence order: (1) the configured
override when present and non-empty, (2) the private storage path
`<globalStorage>/server/<binary>`, (3) `<dir>/<binary>` for each `PATH`
directory in order, (4) `$CARGO_HOME/bin/<binary>`. -/
def serverCandidates (env : Env) : List String :=
  (match env.configServerPath with
   | some cp => if cp = "" then [] else [cp]
   | none => []) ++
  (pathJoin (pathJoin env.globalStoragePath "server") (binaryName env.platform) ::
    env.pathDirs.map (fun dir => pathJoin dir (binaryName env.platform))) ++
  [pathJoin (pathJoin (cargoHomeDir env) "bin") (binaryName env.platform)]

/-- `getPlatformTarget` from `extension.ts` (lines 167–184). -/
def getPlatformTarget (platform arch : String) : Option String :=
  if platform = "linux" ∧ arch = "x64" then some "x86_64-unknown-linux-gnu"
  else if platform = "linux" ∧ arch = "arm64" then some "aarch64-unknown-linux-gnu"
  else if platform = "darwin" ∧ arch = "x64" then some "x86_64-apple-darwin"
  else if platform = "darwin" ∧ arch = "arm64" then some "aarch64-apple-darwin"
  else if platform = "win32" ∧ arch = "x64" then some "x86_64-pc-windows-msvc"
  else none

/-- The five (OS, architecture) pairs the spec documents as supported. -/
def supportedPair (platform arch : String) : Prop :=
  (platform = "linux" ∧ arch = "x64") ∨ (platform = "linux" ∧ arch = "arm64") ∨
  (platform = "darwin" ∧ arch = "x64") ∨ (platform = "darwin" ∧ arch = "arm64") ∨
  (platform = "win32" ∧ arch = "x64")

instance (platform arch : String) : Decidable (supportedPair platform arch) := by
  unfold supportedPair; infer_instance

/-- A release asset: `{name, browser_download_url}`. -/
structure Asset where
  name : String
  browser_download_url : String
deriving Repr, DecidableEq

/-- A release descriptor: `{tag_name, assets}`. -/
structure Release where
  tag_name : String
  assets : List Asset
deriving Repr, DecidableEq

/-- The asset predicate from `downloadServer` (lines 212–217): name starts
with `luat-lsp-<tag>-<target>` and ends with `.tar.gz` or `.zip`. -/
def assetMatches (tag target : String) (a : Asset) : Bool :=
  strStartsWith a.name ("luat-lsp-" ++ tag ++ "-" ++ target) &&
  (strEndsWith a.name ".tar.gz" || strEndsWith a.name ".zip")

/-- `release.assets.find(...)` from `downloadServer` (lines 213–217): the first
asset in listing order satisfying `assetMatches`. -/
def findAsset (tag target : String) (assets : List Asset) : Option Asset :=
  assets.find? (assetMatches tag target)

/-- Observable world state threaded through the orchestration: the existing
file paths, the created directories, the client sessions started so far
(executable paths, in start order), the number of HTTP requests issued, and
the error messages shown via `showErrorMessage`. -/
structure World where
  fs : List String
  dirs : List String
  sessions : List String
  networkRequests : Nat
  errors : List String
deriving Repr, DecidableEq

/-- `window.showErrorMessage`. -/
def addError (w : World) (msg : String) : World :=
  { w with errors := w.errors ++ [msg] }

/-- `fs.unlinkSync` / the unlink in `downloadFile`'s error handler. -/
def removeFile (p : String) (fs : List String) : List String :=
  fs.filter (fun q => q != p)

/-- The externally determined outcomes a run of the orchestration observes:
the locator environment, the user's answer to the download prompt, the
outcome of the `getLatestRelease` request (`Except.error` for a rejected
promise, `none` for a falsy parsed body), the outcome of the archive
download, and the outcome of the external extraction utility (failure, or
the list of paths the archive extracts to). -/
structure ActEnv where
  lenv : Env
  choice : String
  releaseResult : Except String (Option Release)
  downloadResult : Except String Unit
  extractResult : Except String (List String)

/-- `downloadServer` from `extension.ts` (lines 186–257): resolve the target,
fetch the latest release, select the matching asset, create the server
directory, download the archive, extract it, mark the binary executable on
non-Windows (`chmodSync`, which throws when the binary is absent), and
finally unlink the archive.  Any exception is caught by the surrounding
`try`, which reports the error and returns `false` without further
cleanup. -/
def downloadServer (aenv : ActEnv) (w : World) : Bool × World :=
  match getPlatformTarget aenv.lenv.platform aenv.lenv.arch with
  | none =>
    (false, addError w ("Unsupported platform: " ++ aenv.lenv.platform ++ "-" ++ aenv.lenv.arch))
  | some target =>
    let w := { w with networkRequests := w.networkRequests + 1 }
    match aenv.releaseResult with
    | .error e => (false, addError w ("Download failed: " ++ e))
    | .ok none => (false, addError w "Failed to fetch latest release")
    | .ok (some release) =>
      match findAsset release.tag_name target release.assets with
      | none =>
        (false, addError w ("No binary found for " ++ target ++ " in release " ++ release.tag_name))
      | some asset =>
        let serverDir := pathJoin aenv.lenv.globalStoragePath "server"
        let w := { w with dirs := w.dirs.insert serverDir }
        let archivePath := pathJoin serverDir asset.name
        match aenv.downloadResult with
        | .error e =>
          (false, addError { w with networkRequests := w.networkRequests + 1,
                                    fs := removeFile archivePath w.fs }
                    ("Download failed: " ++ e))
        | .ok _ =>
          let w := { w with networkRequests := w.networkRequests + 1,
                            fs := w.fs.insert archivePath }
          match aenv.extractResult with
          | .error e => (false, addError w ("Download failed: " ++ e))
          | .ok extracted =>
            let w := { w with fs := extracted.foldl (fun s p => s.insert p) w.fs }
            if aenv.lenv.platform ≠ "win32" then
              let binaryPath := pathJoin serverDir (binaryName aenv.lenv.platform)
              if w.fs.contains binaryPath then
                (true, { w with fs := removeFile archivePath w.fs })
              else
                (false, addError w "Download failed: Error: ENOENT")
            else
              (true, { w with fs := removeFile archivePath w.fs })

/-- `activate` from `extension.ts` (lines 28–118), restricted to the
acquisition flow the spec covers: locate, start the client when found;
otherwise prompt, and on "Download" run `downloadServer`, reporting failure
or recursively re-entering `activate`.  The recursion is bounded by fuel;
the host UI glue (status bar, command registration) is out of scope. -/
def activate (fuel : Nat) (aenv : ActEnv) (w : World) : World :=
  match fuel with
  | 0 => w
  | fuel + 1 =>
    match getServerPath aenv.lenv w.fs with
    | some serverPath => { w with sessions := w.sessions ++ [serverPath] }
    | none =>
      if aenv.choice = "Download" then
        match downloadServer aenv w with
        | (true, w') => activate fuel aenv w'
        | (false, w') => addError w' "Failed to download luat-lsp. Please install manually."
      else w

/-- The effects a user command handler can perform. -/
inductive CommandEffect
  | restartClient
  | showInfo (msg : String)
  | locateServer
  | startClient (path : String)
deriving Repr, DecidableEq

/-- The `luat.restartServer` command handler (lines 98–105): restart the
client and show a notification when a client exists; otherwise the body is
skipped entirely. -/
def restartServerCommand (client : Option String) : List CommandEffect :=
  match client with
  | some _ => [.restartClient, .showInfo "Luat language server restarted"]
  | none => []

/-- Client session states. -/
inductive SessionState
  | running
  | stopped
deriving Repr, DecidableEq

/-- Modelled from the spec: `LanguageClient.stop` of the
`vscode-languageclient` dependency, which is not part of this repository.
Per §4.5, "`stop` … is idempotent — calling it on an already-stopped session
is a no-op, not an error": it never fails and leaves the session stopped. -/
def stopClient (s : SessionState) : Except String SessionState :=
  match s with
  | .running => .ok .stopped
  | .stopped => .ok .stopped

/-- `deactivate` (lines 120–124): stop the client if one exists.  The module
global `client` is not cleared, so the result is the client state the next
call observes. -/
def deactivate (client : Option SessionState) : Except String (Option SessionState) :=
  match client with
  | some s => (stopClient s).map some
  | none => .ok none

/-- An HTTP response as observed by `downloadFile`: status code, optional
`Location` header, body. -/
structure HttpResponse where
  statusCode : Nat
  location : Option String
  body : String
deriving Repr, DecidableEq

/-- `downloadFile` (lines 285–312) over a network modelled as a function from
URL to response, with fuel bounding the redirect chain (the source follows
redirects without bound).  Returns the contents written to `dest` when the
promise resolves; `none` when the redirect chain exhausts the fuel or a
redirect carries no `Location` header. -/
def downloadFile (net : String → HttpResponse) : Nat → String → Option String
  | 0, _ => none
  | fuel + 1, url =>
    let res := net url
    if res.statusCode = 302 ∨ res.statusCode = 301 then
      match res.location with
      | some loc => downloadFile net fuel loc
      | none => none
    else
      some res.body

/-- The extraction action `extractArchive` performs. -/
inductive ExtractionAction
  | tarGz
  | zipWin
  | zipPosix
  | noAction
deriving Repr, DecidableEq

/-- `extractArchive` (lines 314–330): choose the external command by archive
suffix (`tar` for `.tar.gz`; `Expand-Archive` on Windows or `unzip`
elsewhere for `.zip`); `cmdResult` is the outcome of the external utility
when one runs.  An unrecognized suffix runs no command and resolves. -/
def extractArchive (platform archivePath : String) (cmdResult : Except String Unit) :
    Except String ExtractionAction :=
  if strEndsWith archivePath ".tar.gz" then cmdResult.map (fun _ => .tarGz)
  else if strEndsWith archivePath ".zip" then
    if platform = "win32" then cmdResult.map (fun _ => .zipWin)
    else cmdResult.map (fun _ => .zipPosix)
  else .ok .noAction

/-- A sample locator environment on linux/x64 with extension storage `/gs`. -/
def sampleEnv : Env := ⟨none, "/gs", [], none, "/home/u", "linux", "x64"⟩

/-- The empty starting world. -/
def emptyWorld : World := ⟨[], [], [], 0, []⟩

/-- A run whose archive downloads and extracts, but yields a stray file
instead of the expected binary, so the `chmodSync` step fails. -/
def chmodFailAenv : ActEnv := ⟨sampleEnv, "Download",
  .ok (some ⟨"v1", [⟨"luat-lsp-v1-x86_64-unknown-linux-gnu.tar.gz", "u"⟩]⟩),
  .ok (), .ok ["/gs/server/README"]⟩

/-- A run whose archive downloads and extracts to the expected binary. -/
def goodAenv : ActEnv := ⟨sampleEnv, "Download",
  .ok (some ⟨"v1", [⟨"luat-lsp-v1-x86_64-unknown-linux-gnu.tar.gz", "u"⟩]⟩),
  .ok (), .ok ["/gs/server/luat-lsp"]⟩

/-- A run in which the user declines the download prompt. -/
def declineAenv : ActEnv := ⟨sampleEnv, "Cancel",
  .ok (some ⟨"v1", []⟩), .ok (), .ok []⟩

end LuatExt

namespace LuatExt

/-- The non-config tail of the location search agrees with a first-match scan
of the remaining candidates. -/
theorem locate_tail_spec (fs : List String) (ext cargo bin : String) (dirs : List String) :
    (if existsSync ext fs then some ext
     else
       match dirs.find? (fun dir => existsSync (pathJoin dir bin) fs) with
       | some dir => some (pathJoin dir bin)
       | none => if existsSync cargo fs then some cargo else none)
    = (ext :: dirs.map (fun dir => pathJoin dir bin) ++ [cargo]).find?
        (fun p => existsSync p fs) := by
  cases hext : existsSync ext fs with
  | true =>
    simp only [if_true, List.cons_append]
    simp [List.find?, hext]
  | false =>
    simp only [Bool.false_eq_true, if_false, List.cons_append]
    rw [List.find?_cons_of_neg _ (by simp [hext]), List.find?_append, List.find?_map]
    have hcomp : ((fun p => existsSync p fs) ∘ fun dir => pathJoin dir bin)
        = fun dir => existsSync (pathJoin dir bin) fs := rfl
    rw [hcomp]
    cases hfind : dirs.find? (fun dir => existsSync (pathJoin dir bin) fs) with
    | some dir => simp
    | none =>
      simp only [Option.map_none, Option.none_or]
      cases hcargo : existsSync cargo fs with
      | true => simp [hcargo]
      | false => simp [hcargo]

/-- C1: for every filesystem configuration, `getServerPath` returns exactly the
first existing candidate in the fixed precedence order — configured override,
private storage path, `PATH` entries in order, cargo bin — and `undefined`
exactly when no candidate exists. -/
theorem C1_getServerPath_first_candidate (env : Env) (fs : List String) :
    getServerPath env fs = (serverCandidates env).find? (fun p => existsSync p fs) ∧
    (getServerPath env fs = none ↔ ∀ p ∈ serverCandidates env, ¬ existsSync p fs) := by
  have tail := locate_tail_spec fs
    (pathJoin (pathJoin env.globalStoragePath "server") (binaryName env.platform))
    (pathJoin (pathJoin (cargoHomeDir env) "bin") (binaryName env.platform))
    (binaryName env.platform) env.pathDirs
  have hmain : getServerPath env fs =
      (serverCandidates env).find? (fun p => existsSync p fs) := by
    unfold getServerPath serverCandidates
    cases hc : env.configServerPath with
    | none =>
      simpa only [List.nil_append, List.cons_append] using tail
    | some cp =>
      by_cases hcp : cp = ""
      · subst hcp
        have h1 : (("" : String) != "" && existsSync "" fs) = false := by simp
        simpa only [h1, Bool.false_eq_true, if_false, if_pos rfl, List.nil_append,
          List.cons_append] using tail
      · cases hcpe : existsSync cp fs with
        | true =>
          have h1 : (cp != "" && existsSync cp fs) = true := by simp [hcpe, hcp]
          simp only [h1, if_true, if_neg hcp, List.cons_append, List.nil_append]
          simp [List.find?, hcpe]
        | false =>
          have h1 : (cp != "" && existsSync cp fs) = false := by simp [hcpe]
          simp only [h1, Bool.false_eq_true, if_false, if_neg hcp, List.cons_append,
            List.nil_append]
          rw [List.find?_cons_of_neg _ (by simp [hcpe])]
          simpa only [List.cons_append] using tail
  refine ⟨hmain, ?_⟩
  rw [hmain, List.find?_eq_none]

/-- C2: `getPlatformTarget` returns the documented target triple for exactly
the five supported (OS, architecture) pairs and `undefined` for every other
pair, never a fallback value. -/
theorem C2_getPlatformTarget_table :
    (getPlatformTarget "linux" "x64" = some "x86_64-unknown-linux-gnu" ∧
     getPlatformTarget "linux" "arm64" = some "aarch64-unknown-linux-gnu" ∧
     getPlatformTarget "darwin" "x64" = some "x86_64-apple-darwin" ∧
     getPlatformTarget "darwin" "arm64" = some "aarch64-apple-darwin" ∧
     getPlatformTarget "win32" "x64" = some "x86_64-pc-windows-msvc") ∧
    ∀ platform arch, ¬ supportedPair platform arch →
      getPlatformTarget platform arch = none := by
  constructor
  · exact ⟨by decide, by decide, by decide, by decide, by decide⟩
  · intro p a h
    unfold getPlatformTarget
    split_ifs with h1 h2 h3 h4 h5
    · exact absurd (Or.inl h1) h
    · exact absurd (Or.inr (Or.inl h2)) h
    · exact absurd (Or.inr (Or.inr (Or.inl h3))) h
    · exact absurd (Or.inr (Or.inr (Or.inr (Or.inl h4)))) h
    · exact absurd (Or.inr (Or.inr (Or.inr (Or.inr h5)))) h
    · rfl

/-- Witness for C2: an unsupported pair is mapped to `undefined`. -/
theorem C2_getPlatformTarget_table_witness :
    ¬ supportedPair "plan9" "mips" ∧ getPlatformTarget "plan9" "mips" = none :=
  ⟨by decide, C2_getPlatformTarget_table.2 "plan9" "mips" (by decide)⟩

/-- C3: `downloadServer`'s asset selection returns exactly the first asset in
the release's listing order whose name starts with `luat-lsp-<tag>-<target>`
and ends with `.tar.gz` or `.zip` (every earlier asset fails the predicate);
any asset satisfying the predicate that is first in listing order is chosen
with no sorting or extension preference, so for a listing `[…zip, …tar.gz]`
with both matching, the zip is chosen. -/
theorem C3_findAsset_first_match (tag target : String) (assets : List Asset) :
    (∀ a, findAsset tag target assets = some a →
      assetMatches tag target a = true ∧
      ∃ l₁ l₂, assets = l₁ ++ a :: l₂ ∧ ∀ b ∈ l₁, assetMatches tag target b = false) ∧
    (∀ a rest, assetMatches tag target a = true →
      findAsset tag target (a :: rest) = some a) ∧
    findAsset "v1" "x86_64-unknown-linux-gnu"
      [⟨"luat-lsp-v1-x86_64-unknown-linux-gnu.zip", "url-zip"⟩,
       ⟨"luat-lsp-v1-x86_64-unknown-linux-gnu.tar.gz", "url-tar"⟩]
      = some ⟨"luat-lsp-v1-x86_64-unknown-linux-gnu.zip", "url-zip"⟩ := by
  refine ⟨?_, ?_, by decide⟩
  · intro a h
    rw [findAsset, List.find?_eq_some] at h
    obtain ⟨hp, l₁, l₂, hsplit, hprev⟩ := h
    refine ⟨hp, l₁, l₂, hsplit, fun b hb => ?_⟩
    have := hprev b hb
    simpa using this
  · intro a rest h
    rw [findAsset]
    exact List.find?_cons_of_pos _ h

/-- Witness for C3: with both a zip and a tar.gz matching, the first-listed
asset (the zip) is selected. -/
theorem C3_findAsset_first_match_witness :
    findAsset "v0.2.0" "aarch64-apple-darwin"
      [⟨"luat-lsp-v0.2.0-aarch64-apple-darwin.zip", "u1"⟩,
       ⟨"luat-lsp-v0.2.0-aarch64-apple-darwin.tar.gz", "u2"⟩]
      = some ⟨"luat-lsp-v0.2.0-aarch64-apple-darwin.zip", "u1"⟩ :=
  (C3_findAsset_first_match "v0.2.0" "aarch64-apple-darwin"
      [⟨"luat-lsp-v0.2.0-aarch64-apple-darwin.zip", "u1"⟩,
       ⟨"luat-lsp-v0.2.0-aarch64-apple-darwin.tar.gz", "u2"⟩]).2.1
    ⟨"luat-lsp-v0.2.0-aarch64-apple-darwin.zip", "u1"⟩
    [⟨"luat-lsp-v0.2.0-aarch64-apple-darwin.tar.gz", "u2"⟩] (by decide)

/-- Inserting elements never removes a member. -/
theorem mem_foldl_insert (l : List String) (s : List String) (a : String) (h : a ∈ s) :
    a ∈ l.foldl (fun t p => t.insert p) s := by
  induction l generalizing s with
  | nil => simpa using h
  | cons x xs ih =>
    exact ih (s.insert x) (by simp [List.mem_insert_iff, h])

/-- `downloadServer` never starts a client session. -/
theorem downloadServer_sessions (aenv : ActEnv) (w : World) :
    (downloadServer aenv w).2.sessions = w.sessions := by
  unfold downloadServer
  repeat' split
  all_goals simp [addError]
  all_goals (split <;> rfl)

/-- C4 counterexample: a concrete run in which extraction completes (the
archive yields `/gs/server/README` but not the binary) and the subsequent
`chmodSync` step fails; the run reports failure and the downloaded archive
remains in the install directory rather than being deleted. -/
theorem C4_archive_left_on_chmod_failure :
    (downloadServer chmodFailAenv emptyWorld).1 = false ∧
    "/gs/server/luat-lsp-v1-x86_64-unknown-linux-gnu.tar.gz"
      ∈ (downloadServer chmodFailAenv emptyWorld).2.fs := by decide

/-- C4 (amended): in every run of the installer in which the download and the
extraction complete, the temporary archive is deleted exactly when the
remaining steps succeed; when the run fails afterwards (at the `chmodSync`
step) the archive remains in the install directory. -/
theorem C4_archive_cleanup_amended (aenv : ActEnv) (w : World) (target : String)
    (release : Release) (asset : Asset) (extracted : List String)
    (h1 : getPlatformTarget aenv.lenv.platform aenv.lenv.arch = some target)
    (h2 : aenv.releaseResult = .ok (some release))
    (h3 : findAsset release.tag_name target release.assets = some asset)
    (h4 : aenv.downloadResult = .ok ())
    (h5 : aenv.extractResult = .ok extracted) :
    ((downloadServer aenv w).1 = true →
      pathJoin (pathJoin aenv.lenv.globalStoragePath "server") asset.name
        ∉ (downloadServer aenv w).2.fs) ∧
    ((downloadServer aenv w).1 = false →
      pathJoin (pathJoin aenv.lenv.globalStoragePath "server") asset.name
        ∈ (downloadServer aenv w).2.fs) := by
  unfold downloadServer
  simp only [h1, h2, h3, h4, h5]
  by_cases hwin : aenv.lenv.platform ≠ "win32"
  · rw [if_pos hwin]
    by_cases hbin : (extracted.foldl (fun s p => s.insert p)
        ((({ w with networkRequests := w.networkRequests + 1 } : World)).fs.insert
          (pathJoin (pathJoin aenv.lenv.globalStoragePath "server") asset.name))).contains
        (pathJoin (pathJoin aenv.lenv.globalStoragePath "server") (binaryName aenv.lenv.platform))
    · simp only [hbin, if_true]
      constructor
      · intro _
        simp [removeFile, List.mem_filter]
      · intro hfalse
        simp at hfalse
    · simp only [hbin, Bool.false_eq_true, if_false]
      constructor
      · intro htrue
        simp at htrue
      · intro _
        simp only [addError]
        exact mem_foldl_insert _ _ _ (by simp [List.mem_insert_iff])
  · rw [if_neg hwin]
    constructor
    · intro _
      simp [removeFile, List.mem_filter]
    · intro hfalse
      simp at hfalse

/-- Witness for C4 (amended): in a fully successful run the archive is gone,
and in the chmod-failing run it remains. -/
theorem C4_archive_cleanup_amended_witness :
    "/gs/server/luat-lsp-v1-x86_64-unknown-linux-gnu.tar.gz"
      ∉ (downloadServer goodAenv emptyWorld).2.fs :=
  (C4_archive_cleanup_amended goodAenv emptyWorld "x86_64-unknown-linux-gnu"
      ⟨"v1", [⟨"luat-lsp-v1-x86_64-unknown-linux-gnu.tar.gz", "u"⟩]⟩
      ⟨"luat-lsp-v1-x86_64-unknown-linux-gnu.tar.gz", "u"⟩
      ["/gs/server/luat-lsp"]
      (by decide) rfl (by decide) rfl rfl).1 (by decide)

/-- C5 counterexample: with no current session, the restart command performs
no action at all — in particular it neither probes for a server nor starts
one, contrary to the claimed fallback to the locate-then-start path. -/
theorem C5_restart_no_session_does_nothing :
    restartServerCommand none = [] ∧
    CommandEffect.locateServer ∉ restartServerCommand none ∧
    ∀ p, CommandEffect.startClient p ∉ restartServerCommand none :=
  ⟨rfl, by simp [restartServerCommand], fun p => by simp [restartServerCommand]⟩

/-- C5 (amended): the restart command calls the client's restart and shows a
notification when a session exists; when no session exists it is a no-op —
it neither falls back to the locate/start path nor raises an error. -/
theorem C5_restart_command_amended :
    restartServerCommand none = [] ∧
    ∀ s, restartServerCommand (some s) =
      [CommandEffect.restartClient,
       CommandEffect.showInfo "Luat language server restarted"] :=
  ⟨rfl, fun _ => rfl⟩

/-- C6: when the locator finds no server and the user's answer to the prompt
differs from "Download", `activate` terminates with the world unchanged: no
files or directories created, no network request issued, no session started,
no error reported. -/
theorem C6_decline_no_side_effects (fuel : Nat) (aenv : ActEnv) (w : World)
    (hloc : getServerPath aenv.lenv w.fs = none)
    (hch : aenv.choice ≠ "Download") :
    activate fuel aenv w = w := by
  cases fuel with
  | zero => rfl
  | succ n => simp [activate, hloc, hch]

/-- Witness for C6: a concrete declining run changes nothing. -/
theorem C6_decline_no_side_effects_witness :
    activate 5 declineAenv emptyWorld = emptyWorld :=
  C6_decline_no_side_effects 5 declineAenv emptyWorld (by decide) (by decide)

/-- C7: after a successful download-and-install the orchestrator re-enters
the whole sequence (`activate` again) on the post-install world, and
consequently every session a run of `activate` starts has an executable path
produced by the locator: it is `getServerPath` of some filesystem state. -/
theorem C7_sessions_from_locator :
    (∀ fuel aenv w, getServerPath aenv.lenv w.fs = none → aenv.choice = "Download" →
      (downloadServer aenv w).1 = true →
      activate (fuel + 1) aenv w = activate fuel aenv (downloadServer aenv w).2) ∧
    (∀ fuel aenv w p, p ∈ (activate fuel aenv w).sessions →
      p ∈ w.sessions ∨ ∃ fs', getServerPath aenv.lenv fs' = some p) := by
  constructor
  · intro fuel aenv w hloc hch hok
    simp only [activate, hloc, if_pos hch]
    cases hds : downloadServer aenv w with
    | mk ok w' =>
      rw [hds] at hok
      simp at hok
      subst hok
      rfl
  · intro fuel
    induction fuel with
    | zero => intro aenv w p hp; exact Or.inl hp
    | succ n ih =>
      intro aenv w p hp
      unfold activate at hp
      cases hloc : getServerPath aenv.lenv w.fs with
      | some q =>
        rw [hloc] at hp
        simp at hp
        rcases hp with hp | hp
        · exact Or.inl hp
        · subst hp; exact Or.inr ⟨w.fs, hloc⟩
      | none =>
        rw [hloc] at hp
        by_cases hch : aenv.choice = "Download"
        · rw [if_pos hch] at hp
          cases hds : downloadServer aenv w with
          | mk ok w' =>
            rw [hds] at hp
            have hsess : w'.sessions = w.sessions := by
              have := downloadServer_sessions aenv w
              rw [hds] at this
              exact this
            cases ok with
            | true =>
              rcases ih aenv w' p hp with h | h
              · rw [hsess] at h; exact Or.inl h
              · exact Or.inr h
            | false =>
              simp [addError] at hp
              rw [hsess] at hp
              exact Or.inl hp
        · rw [if_neg hch] at hp
          exact Or.inl hp

/-- Witness for C7: a concrete successful install re-enters `activate` on
the post-install world. -/
theorem C7_sessions_from_locator_witness :
    activate 2 goodAenv emptyWorld = activate 1 goodAenv (downloadServer goodAenv emptyWorld).2 :=
  C7_sessions_from_locator.1 1 goodAenv emptyWorld (by decide) (by decide) (by decide)

/-- C8: `deactivate` is idempotent: with no client it is a no-op, and a
second call on the state a first call leaves behind succeeds and changes
nothing — neither call raises an error.  (`LanguageClient.stop` is modelled
from the spec, the library being outside this repository.) -/
theorem C8_deactivate_idempotent :
    deactivate none = .ok none ∧
    ∀ c, ∃ c', deactivate c = .ok c' ∧ deactivate c' = .ok c' := by
  refine ⟨rfl, fun c => ?_⟩
  cases c with
  | none => exact ⟨none, rfl, rfl⟩
  | some s =>
    cases s with
    | running => exact ⟨some .stopped, rfl, rfl⟩
    | stopped => exact ⟨some .stopped, rfl, rfl⟩

/-- C9: for every response whose status is neither 301 nor 302 — including
error statuses like 404 or 500 — `downloadFile` resolves successfully with
the response body written to the destination file; an HTTP error status is
never detected. -/
theorem C9_downloadFile_ignores_http_errors (net : String → HttpResponse)
    (url : String) (fuel : Nat)
    (h1 : (net url).statusCode ≠ 301) (h2 : (net url).statusCode ≠ 302) :
    downloadFile net (fuel + 1) url = some (net url).body := by
  unfold downloadFile
  rw [if_neg (by tauto)]

/-- Witness for C9: a 404 response body is written and treated as success. -/
theorem C9_downloadFile_ignores_http_errors_witness :
    downloadFile (fun _ => ⟨404, none, "Not Found"⟩) 1 "https://example.invalid/a"
      = some "Not Found" :=
  C9_downloadFile_ignores_http_errors (fun _ => ⟨404, none, "Not Found"⟩)
    "https://example.invalid/a" 0 (by decide) (by decide)

/-- C10: `extractArchive` on a path ending in neither `.tar.gz` nor `.zip`
runs no extraction command and resolves without error — a silent no-op. -/
theorem C10_extractArchive_unknown_suffix_noop (platform archivePath : String)
    (cmdResult : Except String Unit)
    (h1 : strEndsWith archivePath ".tar.gz" = false)
    (h2 : strEndsWith archivePath ".zip" = false) :
    extractArchive platform archivePath cmdResult = .ok .noAction := by
  unfold extractArchive
  rw [if_neg (by simp [h1]), if_neg (by simp [h2])]

/-- Witness for C10: a `.rar` archive is silently ignored even when the
external utility would have failed. -/
theorem C10_extractArchive_unknown_suffix_noop_witness :
    extractArchive "linux" "/gs/server/luat-lsp.rar" (.error "boom")
      = .ok .noAction :=
  C10_extractArchive_unknown_suffix_noop "linux" "/gs/server/luat-lsp.rar"
    (.error "boom") (by decide) (by decide)

end LuatExt
